import Mathlib

/-!
Verification of the duplicate-resolution and file-classification engine of
TriPhoto (src/TriPhoto_v5.py).

Shallow embedding conventions:
* Python strings are modelled as Lean `String` (a wrapper around `List Char`);
  string primitives used by the program (`startswith`, `os.path.splitext`,
  decimal formatting of a counter, `str.lower`) are re-implemented on the
  underlying char lists so that they mirror the Python semantics directly.
* The regex character class `\d` is modelled as the ASCII digits `0-9`
  (the filenames the program manipulates are ASCII camera names).
* The filesystem is explicit data: a drop-folder listing is a `List String`
  of plain-file names, the organized archive is a tree of year directories
  with immediate sub-folders each holding a list of file names, and the
  quarantine directory is the list of names it currently contains.
* Fallible filesystem actions (`shutil.move`, `send2trash`) are driven by
  boolean oracles (`moveFails`, `trashOk`) so that both the success and the
  failure branch of every `try/except` in the source are represented.
-/

namespace TriPhoto

/-- Python `s.startswith(p)` on char lists: `listStartsWith s p` is true iff
`p` is a prefix of `s`. -/
def listStartsWith : List Char → List Char → Bool
  | _, [] => true
  | [], _ :: _ => false
  | a :: s, b :: p => a == b && listStartsWith s p

/-- Python `s.startswith(p)` on strings. -/
def strStartsWith (s p : String) : Bool := listStartsWith s.data p.data

/-- Shape test for the regex `(20\d{2})` anchored at the head of a char
list: literal `2`, literal `0`, then two digits. -/
def yearAtD : List Char → Bool
  | '2' :: '0' :: c :: d :: _ => c.isDigit && d.isDigit
  | _ => false

/-- `re.search(r'(20\d{2})', ...)`: scan left to right and return the first
(leftmost) four-character match, as the source does at TriPhoto_v5.py:453
and again at line 933. -/
def findYearD : List Char → Option (List Char)
  | [] => none
  | a :: t => if yearAtD (a :: t) then some ((a :: t).take 4) else findYearD t

/-- `extractYear`: the year the scanner and the UI read out of a filename
(`match = re.search(r'(20\d{2})', filename)`, `match.group(1)`), `none`
when the regex does not match. Total on all strings by construction. -/
def extractYear (s : String) : Option String :=
  (findYearD s.data).map (fun l => (⟨l⟩ : String))

/-- The regex shape matches at offset `i` of the char list. -/
def yearAt (l : List Char) (i : Nat) : Bool := yearAtD (l.drop i)

/-- The decimal digit `d` as a character (`'0'` is codepoint 48). -/
def digitChar (d : Nat) : Char := Char.ofNat (48 + d)

/-- Decimal printing of a natural number (what Python's f-string
interpolation `f"{counter}"` produces), with structural fuel so that it
reduces in the kernel; `natToStrD n` supplies fuel `n + 1`, which is always
enough since the argument shrinks by a factor of 10 each step. -/
def natToStrAux : Nat → Nat → List Char
  | 0, _ => []
  | fuel + 1, n =>
    if n < 10 then [digitChar n]
    else natToStrAux fuel (n / 10) ++ [digitChar (n % 10)]

/-- Decimal representation of `n` as a char list. -/
def natToStrD (n : Nat) : List Char := natToStrAux (n + 1) n

/-- Reads a digit string back as a number; left inverse of `natToStrD`,
used to prove injectivity of decimal printing. -/
def parseDigits (l : List Char) : Nat :=
  l.foldl (fun a c => a * 10 + (c.toNat - 48)) 0

/-- Index of the last `'.'` in a char list, if any. -/
def lastDotIdx (l : List Char) : Option Nat :=
  match l.reverse.findIdx? (· == '.') with
  | none => none
  | some j => some (l.length - 1 - j)

/-- Python `os.path.splitext` restricted to bare filenames (no directory
separators, the only inputs the program feeds it): split at the last dot,
unless every character before that dot is itself a dot (leading dots of
the basename are not an extension separator). -/
def splitextD (l : List Char) : List Char × List Char :=
  match lastDotIdx l with
  | none => (l, [])
  | some d =>
    if (l.take d).any (fun c => c != '.') then (l.take d, l.drop d) else (l, [])

/-- The `k`-th candidate destination name tried by the collision loops: the
plain filename for `k = 0`, and `f"{name}_{k}{ext}"` (suffix inserted
before the extension) for `k ≥ 1`, exactly as in TriPhoto_v5.py:476-479
and 1074-1078. -/
def candName (filename : String) (k : Nat) : String :=
  if k = 0 then filename
  else ⟨(splitextD filename.data).1 ++ '_' :: (natToStrD k ++ (splitextD filename.data).2)⟩

/-- The `while os.path.exists(dest_path)` loop of the source: starting at
counter `k`, return the first index whose candidate name is not already
present. `existing` is the list of names in the destination directory; the
fuel `existing.length + 1` used by `resolveName` is provably sufficient. -/
def resolveLoop (existing : List String) (filename : String) : Nat → Nat → Nat
  | 0, k => k
  | fuel + 1, k =>
    if candName filename k ∈ existing then resolveLoop existing filename fuel (k + 1)
    else k

/-- Collision-free destination name for `filename` in a directory currently
holding `existing`: the first of `filename`, `name_1.ext`, `name_2.ext`, …
that is free. -/
def resolveName (existing : List String) (filename : String) : String :=
  candName filename (resolveLoop existing filename (existing.length + 1) 0)

/-- One placement row of the organizer: the filename together with the
tree-row values and the `file_data` entry. `data_path_final` models
`self.file_data[filename]['path_final']`; `display_path_final` models the
`path_final` column of the row (`values[3]`), which is where
`update_path_final` writes the recomputed path or the sentinel. -/
structure PlacementRecord where
  filename : String
  year : String
  folder_name : String
  data_path_final : String
  display_path_final : String
deriving DecidableEq

/-- The "needs folder" sentinel written by `update_path_final` when no
folder name is assigned. -/
def needsFolderSentinel : String := "⚠️ Add folder name"

/-- `update_path_final` (TriPhoto_v5.py:973-985): recompute the final path
from the current `(year, folder_name, filename)` triple. With a non-empty
folder name (Python truthiness) the path `\{year}\{folder_name}\{filename}`
is stored in `file_data` and shown in the row; otherwise the row shows the
sentinel (and the `file_data` copy is left as it was). -/
def update_path_final (r : PlacementRecord) : PlacementRecord :=
  if r.folder_name ≠ "" then
    { r with
      data_path_final := "\\" ++ r.year ++ "\\" ++ r.folder_name ++ "\\" ++ r.filename,
      display_path_final := "\\" ++ r.year ++ "\\" ++ r.folder_name ++ "\\" ++ r.filename }
  else
    { r with display_path_final := needsFolderSentinel }

/-- The two edits the UI applies to a placement record: the year edit of
`on_tree_double_click` and the folder assignment of `on_folder_select` /
`create_new_folder`. Each sets the field and then calls
`update_path_final`, exactly as the three call sites in the source do. -/
inductive EditOp where
  | setYear (y : String)
  | setFolder (f : String)

/-- Apply one edit to a record, recomputing the final path afterwards. -/
def applyEdit (r : PlacementRecord) : EditOp → PlacementRecord
  | .setYear y => update_path_final { r with year := y }
  | .setFolder f => update_path_final { r with folder_name := f }

/-- Absolute location of a file in the organized archive, as the triple
`base/year/folder/file` (the base prefix is common to every path the
program builds, so it is omitted). -/
structure FPath where
  year : String
  folder : String
  file : String
deriving DecidableEq

/-- The per-candidate data `apply_changes` reads: a filename plus its
`file_data` entry. -/
structure Candidate where
  filename : String
  year : String
  folder_name : String
  path_final : String
deriving DecidableEq

/-- The skip test of `apply_changes` (TriPhoto_v5.py:1057): process a
candidate only when its `path_final` is non-empty (Python truthiness) and
does not start with the warning sign of the sentinel. -/
def applyEligible (c : Candidate) : Bool :=
  !(c.path_final == "") && !(strStartsWith c.path_final "⚠️")

/-- One iteration of the `apply_changes` loop (TriPhoto_v5.py:1049-1088).
The accumulator carries (moved count, error entries, destination
filesystem). `os.path.exists` at a candidate destination is membership of
the `FPath` triple; the collision loop runs against the file names already
present in the destination directory. `moveFails` drives the
`try/except`: on failure an error entry naming the file is appended and
the loop continues with the next candidate. -/
def applyStep (moveFails : String → Bool) (acc : Nat × List String × List FPath)
    (c : Candidate) : Nat × List String × List FPath :=
  if applyEligible c then
    if moveFails c.filename then
      (acc.1, acc.2.1 ++ [c.filename], acc.2.2)
    else
      (acc.1 + 1, acc.2.1,
        (⟨c.year, c.folder_name,
          resolveName
            ((acc.2.2.filter
              (fun p => p.year == c.year && p.folder == c.folder_name)).map
              (fun p => p.file))
            c.filename⟩ : FPath) :: acc.2.2)
  else acc

/-- `apply_changes` (TriPhoto_v5.py:1039-1096) over a candidate batch:
returns (moved count, error entries, resulting destination filesystem). -/
def apply_changes (moveFails : String → Bool) (cands : List Candidate)
    (fs : List FPath) : Nat × List String × List FPath :=
  cands.foldl (applyStep moveFails) (0, [], fs)

/-- The recognized image extensions (TriPhoto_v5.py:73). -/
def image_extensions : List String :=
  [".jpg", ".jpeg", ".png", ".gif", ".bmp", ".tiff", ".heic", ".heif"]

/-- The recognized video extensions (TriPhoto_v5.py:74). -/
def video_extensions : List String :=
  [".mp4", ".avi", ".mov", ".wmv", ".flv", ".mkv", ".m4v", ".3gp", ".webm", ".mts"]

/-- `os.path.splitext(filename)[1].lower()` of the scanner. -/
def lowerExt (filename : String) : String :=
  ⟨((splitextD filename.data).2).map Char.toLower⟩

/-- The extension test of the scanner: `ext in (image | video)`. -/
def eligibleExt (filename : String) : Bool :=
  decide (lowerExt filename ∈ image_extensions ++ video_extensions)

/-- Numeric value of an ASCII digit character. -/
def dv (c : Char) : Nat := c.toNat - 48

/-- Shape of the regex `(\d{4})(\d{2})(\d{2})_(\d{2})(\d{2})(\d{2})`
anchored at the head of a char list: 8 digits, an underscore, 6 digits. -/
def tsShapeAt : List Char → Bool
  | a :: b :: c :: d :: e :: f :: g :: h :: u :: i :: j :: k :: m :: n :: o :: _ =>
    a.isDigit && b.isDigit && c.isDigit && d.isDigit && e.isDigit && f.isDigit &&
    g.isDigit && h.isDigit && (u == '_') && i.isDigit && j.isDigit && k.isDigit &&
    m.isDigit && n.isDigit && o.isDigit
  | _ => false

/-- Leap-year test of the Gregorian calendar, as Python's datetime uses. -/
def isLeapYear (y : Nat) : Bool :=
  (y % 4 == 0 && y % 100 != 0) || y % 400 == 0

/-- Number of days of month `mo` in year `y`. -/
def daysInMonth (y mo : Nat) : Nat :=
  if mo == 2 then (if isLeapYear y then 29 else 28)
  else if mo == 4 || mo == 6 || mo == 9 || mo == 11 then 30
  else 31

/-- The `datetime(...)` constructor call of the scanner on the six matched
groups: valid calendar values give the datetime encoded as an
order-preserving number, invalid values raise and the bare `except` leaves
the result `none`. -/
def tsValueAt : List Char → Option Nat
  | a :: b :: c :: d :: e :: f :: g :: h :: _ :: i :: j :: k :: m :: n :: o :: _ =>
    let y := 1000 * dv a + 100 * dv b + 10 * dv c + dv d
    let mo := 10 * dv e + dv f
    let dy := 10 * dv g + dv h
    let hh := 10 * dv i + dv j
    let mi := 10 * dv k + dv m
    let ss := 10 * dv n + dv o
    if 1 ≤ y ∧ 1 ≤ mo ∧ mo ≤ 12 ∧ 1 ≤ dy ∧ dy ≤ daysInMonth y mo ∧
        hh ≤ 23 ∧ mi ≤ 59 ∧ ss ≤ 59 then
      some (((((y * 100 + mo) * 100 + dy) * 100 + hh) * 100 + mi) * 100 + ss)
    else none
  | _ => none

/-- `re.search` for the datetime pattern followed by the guarded
`datetime(...)` call (TriPhoto_v5.py:489-497): the leftmost position where
the digit pattern matches is taken; if its calendar values are invalid the
result is `none` — the source does not search further. -/
def findTS : List Char → Option Nat
  | [] => none
  | a :: t => if tsShapeAt (a :: t) then tsValueAt (a :: t) else findTS t

/-- The optional sorting timestamp parsed from a filename. -/
def extractTimestamp (s : String) : Option Nat := findTS s.data

/-- A candidate produced by the scanner: the filename and its parsed
sorting timestamp (the `filepath`/`ext` fields of the source dict are the
drop-folder path and extension derived from the filename). -/
structure ScanFile where
  filename : String
  dt : Option Nat
deriving DecidableEq

/-- State threaded through the scan loop: the names currently in the
`!duplicate` quarantine directory at the drop-folder root, the candidate
list built so far (`root_files`), and the duplicates-moved counter. -/
structure ScanState where
  dupFolder : List String
  candidates : List ScanFile
  count : Nat
deriving DecidableEq

/-- One iteration of the scan loop (TriPhoto_v5.py:439-504) on a plain
(non-directory) entry of the drop folder. `yearIndex` is the Archive
Indexer: the set of filenames found recursively under each year folder.
`moveFails` drives the `try/except` around `shutil.move`: on success the
file lands in quarantine under a collision-resolved name and is counted
(`continue`); on failure the loop logs and falls through, so the file is
left in place and becomes a regular candidate. -/
def scanStep (yearIndex : String → List String) (moveFails : String → Bool)
    (st : ScanState) (filename : String) : ScanState :=
  if eligibleExt filename then
    match extractYear filename with
    | some year =>
      if filename ∈ yearIndex year then
        if moveFails filename then
          { st with candidates := st.candidates ++ [⟨filename, extractTimestamp filename⟩] }
        else
          { st with
            dupFolder := resolveName st.dupFolder filename :: st.dupFolder,
            count := st.count + 1 }
      else
        { st with candidates := st.candidates ++ [⟨filename, extractTimestamp filename⟩] }
    | none =>
      { st with candidates := st.candidates ++ [⟨filename, extractTimestamp filename⟩] }
  else st

/-- Sort key of `root_files.sort`: files without a timestamp sort as
`datetime.min`, before every parsed timestamp (every valid encoded
datetime is positive). -/
def sortKey (sf : ScanFile) : Nat := sf.dt.getD 0

/-- `scan_folder` (TriPhoto_v5.py:421-519): fold the scan step over the
drop-folder listing (`dup0` is the prior content of the quarantine
directory), then sort the candidates by timestamp (a stable sort, like
Python's). Returns the ordered candidate list and the duplicate count. -/
def scan_folder (yearIndex : String → List String) (moveFails : String → Bool)
    (dup0 : List String) (files : List String) : List ScanFile × Nat :=
  let st := files.foldl (scanStep yearIndex moveFails) ⟨dup0, [], 0⟩
  (List.insertionSort (fun a b => sortKey a ≤ sortKey b) st.candidates, st.count)

/-- An immediate subfolder of a year directory together with the plain
files it holds (the `os.listdir` entries that pass `os.path.isfile`). -/
structure FolderEntry where
  name : String
  files : List String
deriving DecidableEq

/-- A directory entry directly under the archive root together with its
immediate subdirectories (non-directory entries inside a year folder are
skipped by the source, so only folders are kept here). -/
structure YearEntry where
  name : String
  folders : List FolderEntry
deriving DecidableEq

/-- The archive root: the directory entries directly under the configured
base path (plain files under the base are skipped by the `isdir` check
before this model applies). -/
abbrev Archive := List YearEntry

/-- `re.match(r'^\d{4}$', item)`: the year-folder name filter
(TriPhoto_v5.py:1463). -/
def isYearName (s : String) : Bool :=
  s.data.length == 4 && s.data.all Char.isDigit

/-- Quarantine-category classification of a folder name
(TriPhoto_v5.py:1478): screenshots or screen recordings. -/
def isScreenshotFolder (name : String) : Bool :=
  strStartsWith name "!Screenshot" || strStartsWith name "!ScreenRecorder"

/-- Organized-folder classification (TriPhoto_v5.py:1481): any folder whose
name does not start with the hidden marker. -/
def isOrganizedFolder (name : String) : Bool := !(strStartsWith name "!")

/-- The global filename index walk of `check_duplicates`
(TriPhoto_v5.py:1455-1499): every file of every immediate subfolder of
every 4-digit year directory, as an `FPath` triple, in traversal order.
The indexing loop runs for every subfolder, including the hidden
`!`-prefixed ones that belong to neither partition.

The source stores sets of full folder paths and partitions each indexed
path `p` by `any(p.startswith(folder_path) ...)`. A path
`base/Y2/F2/file` can only start with `base/Y1/F1` when `Y1 = Y2` (year
names are exactly four characters) and `F1` is a prefix of `F2/file`;
because the classification of a folder is itself a prefix test on the
`!`-markers, a prefix match never crosses the screenshot/organized
boundary, so the partition coincides with classifying each path by its
own folder's name, which is how it is embedded below. -/
def archivePaths (arch : Archive) : List FPath :=
  (arch.filter (fun y => isYearName y.name)).flatMap
    (fun y => y.folders.flatMap
      (fun fl => fl.files.map (fun fn => (⟨y.name, fl.name, fn⟩ : FPath))))

/-- `file_index[filename]`: the paths indexed for one filename. -/
def pathsOf (arch : Archive) (fname : String) : List FPath :=
  (archivePaths arch).filter (fun p => p.file == fname)

/-- The keys of `file_index` (a dict keyed by filename; key order is
immaterial to the properties below). -/
def indexFilenames (arch : Archive) : List String :=
  ((archivePaths arch).map (fun p => p.file)).dedup

/-- What `check_duplicates` decides for one filename of the index. -/
inductive GAction where
  | skip
  | autoDelete (sPaths : List FPath)
  | conflict (oPaths : List FPath)
deriving DecidableEq

/-- The per-filename classification of `check_duplicates`
(TriPhoto_v5.py:1511-1545): fewer than two copies or an ignored filename
is skipped; with both a quarantine-category copy and an organized copy
present, all quarantine-category copies are targeted for deletion
(`screenshot_paths` in the source); otherwise, with at least two organized
copies, the group is a conflict carrying the organized paths; any other
combination falls through both branches and nothing happens. -/
def groupProcess (ignore : List String) (paths : List FPath) (fname : String) :
    GAction :=
  if paths.length < 2 then .skip
  else if fname ∈ ignore then .skip
  else if paths.filter (fun p => isScreenshotFolder p.folder) ≠ [] ∧
          paths.filter (fun p => isOrganizedFolder p.folder) ≠ [] then
    .autoDelete (paths.filter (fun p => isScreenshotFolder p.folder))
  else if 2 ≤ (paths.filter (fun p => isOrganizedFolder p.folder)).length then
    .conflict (paths.filter (fun p => isOrganizedFolder p.folder))
  else .skip

/-- All quarantine-category paths `check_duplicates` tries to delete. -/
def autoDeletePaths (ignore : List String) (arch : Archive) : List FPath :=
  (indexFilenames arch).flatMap (fun fn =>
    match groupProcess ignore (pathsOf arch fn) fn with
    | .autoDelete s => s
    | _ => [])

/-- The deletions that actually succeed. `send2trash` is modelled by the
oracle `trashOk`; the source catches any exception, prints it, and moves
on — `check_duplicates` has no permanent-delete fallback and does not
report the failed group. -/
def succDeleted (trashOk : FPath → Bool) (ignore : List String) (arch : Archive) :
    List FPath :=
  (autoDeletePaths ignore arch).filter trashOk

/-- `auto_delete_count`: incremented once per successful `send2trash`. -/
def auditCount (trashOk : FPath → Bool) (ignore : List String) (arch : Archive) :
    Nat :=
  (succDeleted trashOk ignore arch).length

/-- The conflict list handed to `show_duplicate_conflicts`: pairs of a
filename and its organized paths. -/
def auditConflicts (ignore : List String) (arch : Archive) :
    List (String × List FPath) :=
  (indexFilenames arch).flatMap (fun fn =>
    match groupProcess ignore (pathsOf arch fn) fn with
    | .conflict o => [(fn, o)]
    | _ => [])

/-- The archive after one run of `check_duplicates`: every successfully
trashed path is removed from its folder; nothing else changes. -/
def auditArchive (trashOk : FPath → Bool) (ignore : List String) (arch : Archive) :
    Archive :=
  arch.map (fun y =>
    ⟨y.name, y.folders.map (fun fl =>
      ⟨fl.name, fl.files.filter (fun fn =>
        !(decide ((⟨y.name, fl.name, fn⟩ : FPath)
          ∈ succDeleted trashOk ignore arch)))⟩)⟩)

/-- Concrete archive whose only duplicated filename lives twice in
quarantine-category folders and nowhere else. -/
def archiveAllQuarantine : Archive :=
  [⟨"2024", [⟨"!Screenshots_2024", ["a.jpg"]⟩, ⟨"!ScreenRecorder_2024", ["a.jpg"]⟩]⟩]

/-- Concrete archive with one screenshot copy and one organized copy of
the same filename (the spec's auto-resolution example). -/
def archiveAutoResolvable : Archive :=
  [⟨"2024", [⟨"!Screenshots_2024", ["a.jpg"]⟩, ⟨"Vacation", ["a.jpg"]⟩]⟩]

/-- Concrete archive with one copy in a generic hidden folder and one
organized copy of the same filename. -/
def archiveHidden : Archive :=
  [⟨"2024", [⟨"!tempvideoscreen", ["a.jpg"]⟩, ⟨"Vacation", ["a.jpg"]⟩]⟩]

end TriPhoto

namespace TriPhoto

theorem yearAt_zero (l : List Char) : yearAt l 0 = yearAtD l := rfl

theorem yearAt_succ (a : Char) (t : List Char) (i : Nat) :
    yearAt (a :: t) (i + 1) = yearAt t i := by
  simp [yearAt]

theorem findYearD_eq_none (l : List Char) (h : ∀ i, yearAt l i = false) :
    findYearD l = none := by
  induction l with
  | nil => rfl
  | cons a t ih =>
    have h0 : yearAtD (a :: t) = false := h 0
    simp only [findYearD, h0, if_false, Bool.false_eq_true]
    exact ih (fun i => (yearAt_succ a t i) ▸ h (i + 1))

theorem findYearD_eq_some (l : List Char) :
    ∀ i, yearAt l i = true → (∀ j, j < i → yearAt l j = false) →
      findYearD l = some ((l.drop i).take 4) := by
  induction l with
  | nil => intro i hi _; simp [yearAt, yearAtD] at hi
  | cons a t ih =>
    intro i hi hmin
    cases i with
    | zero =>
      have : yearAtD (a :: t) = true := hi
      simp [findYearD, this]
    | succ i =>
      have h0 : yearAtD (a :: t) = false := hmin 0 (Nat.succ_pos i)
      simp only [findYearD, h0, if_false, Bool.false_eq_true, List.drop_succ_cons]
      exact ih i hi (fun j hj => by
        have := hmin (j + 1) (by omega)
        simpa [yearAt] using this)

/-- C7: for every filename containing a `20xx`-shaped 4-digit substring
(literal `2`, literal `0`, two digits), `extractYear` returns the leftmost
such match, and for every filename without one it returns `none`; the
function is a pure total Lean function on all string inputs. -/
theorem extractYear_leftmost (s : String) :
    ((∀ i, yearAt s.data i = false) → extractYear s = none) ∧
    (∀ i, yearAt s.data i = true → (∀ j, j < i → yearAt s.data j = false) →
      extractYear s = some (⟨(s.data.drop i).take 4⟩ : String)) := by
  constructor
  · intro h
    simp [extractYear, findYearD_eq_none s.data h]
  · intro i hi hmin
    simp [extractYear, findYearD_eq_some s.data i hi hmin]

/-- Witness for C7 at the spec's own example: `"IMG_2021_backup2023.jpg"`
contains two `20xx` substrings and the leftmost one, `"2021"` at offset 4,
is returned. -/
theorem extractYear_leftmost_witness :
    yearAt "IMG_2021_backup2023.jpg".data 4 = true ∧
    (∀ j, j < 4 → yearAt "IMG_2021_backup2023.jpg".data j = false) ∧
    extractYear "IMG_2021_backup2023.jpg" = some "2021" := by
  refine ⟨by decide, by decide, ?_⟩
  have h := (extractYear_leftmost "IMG_2021_backup2023.jpg").2 4 (by decide) (by decide)
  rw [h]
  rfl

theorem digitChar_toNat : ∀ d, d < 10 → (digitChar d).toNat = 48 + d := by decide

theorem natToStrAux_foldl : ∀ fuel n, n < fuel → ∀ acc,
    (natToStrAux fuel n).foldl (fun a c => a * 10 + (c.toNat - 48)) acc
      = acc * 10 ^ (natToStrAux fuel n).length + n := by
  intro fuel
  induction fuel with
  | zero => intro n h; omega
  | succ fuel ih =>
    intro n h acc
    by_cases hn : n < 10
    · have hdc := digitChar_toNat n hn
      simp [natToStrAux, hn, hdc]
    · have hd : n / 10 < fuel := by omega
      have hdc := digitChar_toNat (n % 10) (by omega)
      simp only [natToStrAux, hn, if_false, List.foldl_append, List.foldl_cons,
        List.foldl_nil, List.length_append, List.length_cons, List.length_nil]
      rw [ih (n / 10) hd acc]
      have hmod : 10 * (n / 10) + n % 10 = n := Nat.div_add_mod n 10
      rw [hdc]
      have hsub : 48 + n % 10 - 48 = n % 10 := by omega
      rw [hsub]
      calc (acc * 10 ^ (natToStrAux fuel (n / 10)).length + n / 10) * 10 + n % 10
          = acc * (10 ^ (natToStrAux fuel (n / 10)).length * 10)
              + (10 * (n / 10) + n % 10) := by ring
        _ = acc * 10 ^ ((natToStrAux fuel (n / 10)).length + (0 + 1)) + n := by
              rw [hmod, pow_succ]

theorem parseDigits_natToStrD (n : Nat) : parseDigits (natToStrD n) = n := by
  have h := natToStrAux_foldl (n + 1) n (by omega) 0
  simpa [parseDigits, natToStrD] using h

theorem natToStrD_inj {m n : Nat} (h : natToStrD m = natToStrD n) : m = n := by
  have hm := parseDigits_natToStrD m
  rw [h, parseDigits_natToStrD] at hm
  omega

theorem natToStrD_ne_nil (n : Nat) : natToStrD n ≠ [] := by
  unfold natToStrD natToStrAux
  by_cases hn : n < 10 <;> simp [hn]

theorem splitextD_append (l : List Char) : (splitextD l).1 ++ (splitextD l).2 = l := by
  cases hld : lastDotIdx l with
  | none => simp [splitextD, hld]
  | some d =>
    by_cases h : (l.take d).any (fun c => c != '.')
    · simp [splitextD, hld, h, List.take_append_drop]
    · simp [splitextD, hld, h]

theorem candName_zero (f : String) : candName f 0 = f := rfl

theorem candName_succ_data (f : String) (k : Nat) :
    (candName f (k + 1)).data
      = (splitextD f.data).1 ++ '_' :: (natToStrD (k + 1) ++ (splitextD f.data).2) := by
  simp [candName]

theorem candName_succ_length (f : String) (k : Nat) :
    (candName f (k + 1)).data.length
      = f.data.length + 1 + (natToStrD (k + 1)).length := by
  rw [candName_succ_data]
  have h := congrArg List.length (splitextD_append f.data)
  simp only [List.length_append] at h
  simp only [List.length_append, List.length_cons]
  omega

theorem candName_succ_ne_base (f : String) (k : Nat) : candName f (k + 1) ≠ f := by
  intro h
  have hlen := congrArg (fun s : String => s.data.length) h
  simp only [candName_succ_length] at hlen
  have h3 : 0 < (natToStrD (k + 1)).length :=
    List.length_pos.mpr (natToStrD_ne_nil _)
  omega

theorem candName_inj (f : String) {a b : Nat} (h : candName f a = candName f b) :
    a = b := by
  cases a with
  | zero =>
    cases b with
    | zero => rfl
    | succ b =>
      rw [candName_zero] at h
      exact absurd h.symm (candName_succ_ne_base f b)
  | succ a =>
    cases b with
    | zero =>
      rw [candName_zero] at h
      exact absurd h (candName_succ_ne_base f a)
    | succ b =>
      have hd := congrArg String.data h
      rw [candName_succ_data, candName_succ_data] at hd
      have h1 := List.append_cancel_left hd
      injection h1 with _ h2
      have h3 := List.append_cancel_right h2
      exact natToStrD_inj h3

theorem candName_exists_free (existing : List String) (f : String) :
    ∃ j, j < existing.length + 1 ∧ candName f j ∉ existing := by
  by_contra hcon
  push_neg at hcon
  have hnd : ((List.range (existing.length + 1)).map (candName f)).Nodup :=
    List.Nodup.map (fun a b hab => candName_inj f hab) (List.nodup_range _)
  have hsub : ((List.range (existing.length + 1)).map (candName f)).toFinset
      ⊆ existing.toFinset := by
    intro x hx
    rcases List.mem_map.mp (List.mem_toFinset.mp hx) with ⟨j, hj, rfl⟩
    exact List.mem_toFinset.mpr (hcon j (List.mem_range.mp hj))
  have h1 : ((List.range (existing.length + 1)).map (candName f)).toFinset.card
      = existing.length + 1 := by
    rw [List.toFinset_card_of_nodup hnd]
    simp
  have h3 := Finset.card_le_card hsub
  have h4 : existing.toFinset.card ≤ existing.length := List.toFinset_card_le existing
  omega

theorem resolveLoop_spec (existing : List String) (f : String) :
    ∀ fuel k, (∃ j, j < fuel ∧ candName f (k + j) ∉ existing) →
      candName f (resolveLoop existing f fuel k) ∉ existing ∧
      ∀ m, k ≤ m → m < resolveLoop existing f fuel k → candName f m ∈ existing := by
  intro fuel
  induction fuel with
  | zero =>
    rintro k ⟨j, hj, _⟩
    omega
  | succ fuel ih =>
    rintro k ⟨j, hj, hfree⟩
    by_cases hmem : candName f k ∈ existing
    · have hj0 : j ≠ 0 := by
        intro hz
        subst hz
        simp only [Nat.add_zero] at hfree
        exact hfree hmem
      have hrec := ih (k + 1) ⟨j - 1, by omega, by
        have hkj : k + 1 + (j - 1) = k + j := by omega
        rw [hkj]
        exact hfree⟩
      simp only [resolveLoop, hmem, if_true]
      refine ⟨hrec.1, ?_⟩
      intro m hkm hm
      by_cases hmk : m = k
      · subst hmk; exact hmem
      · exact hrec.2 m (by omega) hm
    · have hred : resolveLoop existing f (fuel + 1) k = k := by
        simp [resolveLoop, hmem]
      rw [hred]
      exact ⟨hmem, fun m hkm hm => by omega⟩

theorem resolveName_spec (existing : List String) (f : String) :
    resolveName existing f ∉ existing ∧
    ∀ m, m < resolveLoop existing f (existing.length + 1) 0 →
      candName f m ∈ existing := by
  obtain ⟨j, hj, hfree⟩ := candName_exists_free existing f
  have h := resolveLoop_spec existing f (existing.length + 1) 0
    ⟨j, hj, by simpa using hfree⟩
  exact ⟨h.1, fun m hm => h.2 m (Nat.zero_le m) hm⟩

theorem resolveName_not_mem (existing : List String) (f : String) :
    resolveName existing f ∉ existing :=
  (resolveName_spec existing f).1

theorem resolveName_nil (f : String) : resolveName [] f = f := by
  simp [resolveName, resolveLoop, candName]

theorem resolveName_single (f : String) : resolveName [f] f = candName f 1 := by
  have h1 : candName f 1 ≠ f := candName_succ_ne_base f 0
  simp [resolveName, resolveLoop, candName_zero, h1]

theorem resolveName_pair (f : String) :
    resolveName [candName f 1, f] f = candName f 2 := by
  have h0 : candName f 0 ∈ [candName f 1, f] := by
    rw [candName_zero]; simp
  have h1 : candName f 1 ∈ [candName f 1, f] := by simp
  have h2a : candName f 2 ≠ candName f 1 := by
    intro h
    have := candName_inj f h
    omega
  have h2b : candName f 2 ≠ f := candName_succ_ne_base f 1
  simp [resolveName, resolveLoop, h0, h1, h2a, h2b]

/-- C9: after every edit to a placement record's year or folder name, the
recorded final path is recomputed and equals
`\{year}\{folder_name}\{filename}` (the source builds the path with
backslash separators and a leading separator) when the folder name is set,
and the "needs folder" sentinel when it is empty — it is never stale with
respect to the current `(year, folder_name, filename)` triple. -/
theorem update_path_final_consistent (r : PlacementRecord) (op : EditOp) :
    (applyEdit r op).display_path_final =
      (if (applyEdit r op).folder_name ≠ "" then
        "\\" ++ (applyEdit r op).year ++ "\\" ++ (applyEdit r op).folder_name
          ++ "\\" ++ (applyEdit r op).filename
      else needsFolderSentinel) ∧
    (applyEdit r op).year = (match op with | .setYear y => y | .setFolder _ => r.year) ∧
    (applyEdit r op).folder_name =
      (match op with | .setYear _ => r.folder_name | .setFolder f => f) := by
  cases op with
  | setYear y =>
    by_cases h : r.folder_name ≠ "" <;>
      simp [applyEdit, update_path_final, h]
  | setFolder f =>
    by_cases h : f ≠ "" <;>
      simp [applyEdit, update_path_final, h]

theorem applyStep_foldl (moveFails : String → Bool) (cands : List Candidate) :
    ∀ acc : Nat × List String × List FPath,
      (cands.foldl (applyStep moveFails) acc).1
          = acc.1 + (cands.filter
              (fun c => applyEligible c && !moveFails c.filename)).length ∧
      (cands.foldl (applyStep moveFails) acc).2.1
          = acc.2.1 ++ (cands.filter
              (fun c => applyEligible c && moveFails c.filename)).map
              (fun c => c.filename) := by
  induction cands with
  | nil => intro acc; simp
  | cons c t ih =>
    intro acc
    by_cases he : applyEligible c = true
    · by_cases hf : moveFails c.filename = true
      · constructor
        · rw [List.foldl_cons, (ih (applyStep moveFails acc c)).1]
          simp [applyStep, he, hf, List.filter_cons]
        · rw [List.foldl_cons, (ih (applyStep moveFails acc c)).2]
          simp [applyStep, he, hf, List.filter_cons]
      · constructor
        · rw [List.foldl_cons, (ih (applyStep moveFails acc c)).1]
          simp [applyStep, he, hf, List.filter_cons]
          omega
        · rw [List.foldl_cons, (ih (applyStep moveFails acc c)).2]
          simp [applyStep, he, hf, List.filter_cons]
    · constructor
      · rw [List.foldl_cons, (ih (applyStep moveFails acc c)).1]
        simp [applyStep, he, List.filter_cons]
      · rw [List.foldl_cons, (ih (applyStep moveFails acc c)).2]
        simp [applyStep, he, List.filter_cons]

/-- C6: during commit, a failing move is recorded as an error entry naming
that file and does not stop processing of the remaining candidates — the
moved count is exactly the number of eligible candidates whose move
succeeds and the error list is exactly the eligible candidates whose move
fails, in order; in particular committing 3 placements with 1 failing move
reports movedCount = 2 and exactly 1 error entry, and a batch in which
some files succeeded is never reported as a total failure. -/
theorem apply_changes_partial_failure (moveFails : String → Bool)
    (cands : List Candidate) (fs : List FPath) :
    (apply_changes moveFails cands fs).1
        = (cands.filter (fun c => applyEligible c && !moveFails c.filename)).length ∧
    (apply_changes moveFails cands fs).2.1
        = (cands.filter (fun c => applyEligible c && moveFails c.filename)).map
            (fun c => c.filename) := by
  have h := applyStep_foldl moveFails cands (0, [], fs)
  simpa [apply_changes] using h

/-- C5: no move of `apply_changes` ever overwrites an existing file — the
collision-resolved destination name is never one of the names already in
the destination directory — and committing three candidates that resolve
to the same destination directory and filename gives the first the plain
name, the second the `_1`-suffixed name and the third the `_2`-suffixed
name (suffix inserted before the extension), iterating the counter until a
free name is found. -/
theorem apply_changes_collision_safety (ex : List String) (f y d : String) :
    resolveName ex f ∉ ex ∧
    apply_changes (fun _ => false)
        [⟨f, y, d, "p"⟩, ⟨f, y, d, "p"⟩, ⟨f, y, d, "p"⟩] []
      = (3, [], [⟨y, d, candName f 2⟩, ⟨y, d, candName f 1⟩, ⟨y, d, f⟩]) := by
  refine ⟨resolveName_not_mem ex f, ?_⟩
  have he : applyEligible ⟨f, y, d, "p"⟩ = true := rfl
  simp [apply_changes, applyStep, he, resolveName_nil, resolveName_single,
    resolveName_pair]

/-- C2: an eligible drop-folder file whose extracted year exists and whose
filename the Archive Indexer reports as already present for that year is,
when the move succeeds, relocated into the quarantine directory under the
first free of `filename`, `name_1.ext`, `name_2.ext`, … (the counter is
incremented iteratively, every smaller candidate name being taken), the
duplicate count is incremented, and the candidate list is unchanged; when
the move fails the quarantine directory and the count are unchanged (the
file stays in place) and the scan continues with the remaining files
rather than aborting (folding over a longer listing just continues from
the state reached so far). -/
theorem scan_folder_duplicate_relocation (yearIndex : String → List String)
    (moveFails : String → Bool) (st : ScanState) (f y : String)
    (he : eligibleExt f = true) (hy : extractYear f = some y)
    (hin : f ∈ yearIndex y) :
    (moveFails f = false →
      scanStep yearIndex moveFails st f
          = { st with
              dupFolder := resolveName st.dupFolder f :: st.dupFolder,
              count := st.count + 1 } ∧
      resolveName st.dupFolder f ∉ st.dupFolder ∧
      (∃ k, resolveName st.dupFolder f = candName f k ∧
        ∀ m, m < k → candName f m ∈ st.dupFolder)) ∧
    (moveFails f = true →
      scanStep yearIndex moveFails st f
          = { st with
              candidates := st.candidates ++ [⟨f, extractTimestamp f⟩] }) ∧
    (∀ files₁ files₂ : List String, ∀ s : ScanState,
      (files₁ ++ files₂).foldl (scanStep yearIndex moveFails) s
        = files₂.foldl (scanStep yearIndex moveFails)
            (files₁.foldl (scanStep yearIndex moveFails) s)) := by
  refine ⟨?_, ?_, ?_⟩
  · intro hmf
    refine ⟨by simp [scanStep, he, hy, hin, hmf], resolveName_not_mem _ _, ?_⟩
    exact ⟨resolveLoop st.dupFolder f (st.dupFolder.length + 1) 0, rfl,
      (resolveName_spec st.dupFolder f).2⟩
  · intro hmf
    simp [scanStep, he, hy, hin, hmf]
  · intro l₁ l₂ s
    exact List.foldl_append _ _ _ _

/-- Witness for C2: a drop folder holding `a2024.jpg` with that filename
already indexed under year 2024 and a succeeding move — the file is
relocated to quarantine, counted, and not added to the candidates. -/
theorem scan_folder_duplicate_relocation_witness :
    scanStep (fun _ => ["a2024.jpg"]) (fun _ => false) ⟨[], [], 0⟩ "a2024.jpg"
      = ⟨["a2024.jpg"], [], 1⟩ := by
  have h := (scan_folder_duplicate_relocation (fun _ => ["a2024.jpg"])
      (fun _ => false) ⟨[], [], 0⟩ "a2024.jpg" "2024"
      (by decide) (by decide) (by decide)).1 rfl
  rw [h.1]
  decide

theorem scanStep_candidates_mono (yearIndex : String → List String)
    (moveFails : String → Bool) (st : ScanState) (g : String) :
    ∃ t, (scanStep yearIndex moveFails st g).candidates = st.candidates ++ t := by
  by_cases he : eligibleExt g = true
  · cases hy : extractYear g with
    | some y =>
      by_cases hin : g ∈ yearIndex y
      · by_cases hmf : moveFails g = true
        · exact ⟨[⟨g, extractTimestamp g⟩], by simp [scanStep, he, hy, hin, hmf]⟩
        · exact ⟨[], by simp [scanStep, he, hy, hin, hmf]⟩
      · exact ⟨[⟨g, extractTimestamp g⟩], by simp [scanStep, he, hy, hin]⟩
    | none => exact ⟨[⟨g, extractTimestamp g⟩], by simp [scanStep, he, hy]⟩
  · exact ⟨[], by simp [scanStep, he]⟩

theorem foldl_candidates_mono (yearIndex : String → List String)
    (moveFails : String → Bool) (files : List String) : ∀ st : ScanState,
    ∃ t, (files.foldl (scanStep yearIndex moveFails) st).candidates
        = st.candidates ++ t := by
  induction files with
  | nil => intro st; exact ⟨[], by simp⟩
  | cons g gs ih =>
    intro st
    obtain ⟨t₁, h₁⟩ := scanStep_candidates_mono yearIndex moveFails st g
    obtain ⟨t₂, h₂⟩ := ih (scanStep yearIndex moveFails st g)
    exact ⟨t₁ ++ t₂, by simp [List.foldl_cons, h₂, h₁]⟩

/-- C10 (implicit): when relocating a detected intake duplicate into the
quarantine directory fails with an exception, the scan does not merely
leave the file in place and exclude it — the file is appended to the
candidate list (with its parsed timestamp, like any regular candidate), it
is not counted in the duplicates-relocated count, the quarantine directory
is untouched, and the file is returned from the full scan among the sorted
candidates awaiting placement. -/
theorem scan_folder_move_failure_candidate (yearIndex : String → List String)
    (moveFails : String → Bool) (f y : String)
    (he : eligibleExt f = true) (hy : extractYear f = some y)
    (hin : f ∈ yearIndex y) (hmf : moveFails f = true) :
    (∀ st : ScanState,
      (scanStep yearIndex moveFails st f).candidates
          = st.candidates ++ [⟨f, extractTimestamp f⟩] ∧
      (scanStep yearIndex moveFails st f).count = st.count ∧
      (scanStep yearIndex moveFails st f).dupFolder = st.dupFolder) ∧
    (∀ dup0 files₁ files₂ : List String,
      (⟨f, extractTimestamp f⟩ : ScanFile)
        ∈ (scan_folder yearIndex moveFails dup0 (files₁ ++ f :: files₂)).1) := by
  have hstep : ∀ st : ScanState, scanStep yearIndex moveFails st f
      = { st with candidates := st.candidates ++ [⟨f, extractTimestamp f⟩] } := by
    intro st
    simp [scanStep, he, hy, hin, hmf]
  constructor
  · intro st
    rw [hstep st]
    exact ⟨rfl, rfl, rfl⟩
  · intro dup0 l₁ l₂
    unfold scan_folder
    rw [List.mem_insertionSort, List.foldl_append, List.foldl_cons]
    obtain ⟨t₂, h₂⟩ := foldl_candidates_mono yearIndex moveFails l₂
      (scanStep yearIndex moveFails (l₁.foldl (scanStep yearIndex moveFails) ⟨dup0, [], 0⟩) f)
    rw [h₂, hstep]
    simp

/-- Witness for C10: a single-file drop folder where the quarantine move of
the detected duplicate fails — the file comes back from the scan as a
candidate and the duplicate count stays 0. -/
theorem scan_folder_move_failure_candidate_witness :
    (⟨"a2024.jpg", none⟩ : ScanFile)
      ∈ (scan_folder (fun _ => ["a2024.jpg"]) (fun _ => true) [] ["a2024.jpg"]).1 := by
  have h := (scan_folder_move_failure_candidate (fun _ => ["a2024.jpg"])
      (fun _ => true) "a2024.jpg" "2024"
      (by decide) (by decide) (by decide) rfl).2 [] [] []
  have hts : extractTimestamp "a2024.jpg" = none := by decide
  rw [hts] at h
  simpa using h

theorem listStartsWith_head {s : List Char} {c : Char} {r : List Char}
    (h : listStartsWith s (c :: r) = true) : listStartsWith s [c] = true := by
  cases s with
  | nil => simp [listStartsWith] at h
  | cons a t =>
    simp [listStartsWith] at h ⊢
    exact h.1

theorem screenshot_starts_bang {n : String} (h : isScreenshotFolder n = true) :
    strStartsWith n "!" = true := by
  have h' : strStartsWith n "!Screenshot" = true ∨ strStartsWith n "!ScreenRecorder" = true := by
    simpa [isScreenshotFolder] using h
  rcases h' with h1 | h1
  · have h2 : listStartsWith n.data ('!' :: "Screenshot".data) = true := h1
    exact listStartsWith_head h2
  · have h2 : listStartsWith n.data ('!' :: "ScreenRecorder".data) = true := h1
    exact listStartsWith_head h2

theorem screenshot_not_organized {n : String} (h : isScreenshotFolder n = true) :
    isOrganizedFolder n = false := by
  unfold isOrganizedFolder
  rw [screenshot_starts_bang h]
  rfl

theorem organized_not_screenshot {n : String} (h : isOrganizedFolder n = true) :
    isScreenshotFolder n = false := by
  cases hc : isScreenshotFolder n with
  | false => rfl
  | true =>
    rw [screenshot_not_organized hc] at h
    exact absurd h (by simp)

theorem mem_pathsOf_iff {arch : Archive} {fname : String} {p : FPath} :
    p ∈ pathsOf arch fname ↔ p ∈ archivePaths arch ∧ p.file = fname := by
  simp [pathsOf, List.mem_filter]

theorem mem_indexFilenames {arch : Archive} {p : FPath}
    (h : p ∈ archivePaths arch) : p.file ∈ indexFilenames arch := by
  rw [indexFilenames, List.mem_dedup]
  exact List.mem_map.mpr ⟨p, h, rfl⟩

theorem mem_archivePaths_audit {trashOk : FPath → Bool} {ignore : List String}
    {arch : Archive} {p : FPath} :
    p ∈ archivePaths (auditArchive trashOk ignore arch)
      ↔ p ∈ archivePaths arch ∧ p ∉ succDeleted trashOk ignore arch := by
  constructor
  · intro hp
    rcases List.mem_flatMap.mp hp with ⟨y', hy', hp1⟩
    rcases List.mem_filter.mp hy' with ⟨hy'mem, hy'year⟩
    rcases List.mem_map.mp hy'mem with ⟨y, hy, rfl⟩
    rcases List.mem_flatMap.mp hp1 with ⟨fl', hfl', hp2⟩
    rcases List.mem_map.mp hfl' with ⟨fl, hfl, rfl⟩
    rcases List.mem_map.mp hp2 with ⟨fn, hfn, rfl⟩
    rcases List.mem_filter.mp hfn with ⟨hfnmem, hfnkeep⟩
    constructor
    · exact List.mem_flatMap.mpr ⟨y, List.mem_filter.mpr ⟨hy, by simpa using hy'year⟩,
        List.mem_flatMap.mpr ⟨fl, hfl, List.mem_map.mpr ⟨fn, hfnmem, rfl⟩⟩⟩
    · intro hdel
      simp only [Bool.not_eq_true', decide_eq_false_iff_not] at hfnkeep
      exact hfnkeep hdel
  · rintro ⟨hp, hnd⟩
    rcases List.mem_flatMap.mp hp with ⟨y, hy, hp1⟩
    rcases List.mem_filter.mp hy with ⟨hymem, hyyear⟩
    rcases List.mem_flatMap.mp hp1 with ⟨fl, hfl, hp2⟩
    rcases List.mem_map.mp hp2 with ⟨fn, hfn, rfl⟩
    refine List.mem_flatMap.mpr ⟨⟨y.name, y.folders.map (fun fl =>
      ⟨fl.name, fl.files.filter (fun fn =>
        !(decide ((⟨y.name, fl.name, fn⟩ : FPath)
          ∈ succDeleted trashOk ignore arch)))⟩)⟩, ?_, ?_⟩
    · refine List.mem_filter.mpr ⟨?_, by simpa using hyyear⟩
      exact List.mem_map.mpr ⟨y, hymem, rfl⟩
    · refine List.mem_flatMap.mpr ⟨⟨fl.name, fl.files.filter (fun fn =>
        !(decide ((⟨y.name, fl.name, fn⟩ : FPath)
          ∈ succDeleted trashOk ignore arch)))⟩, ?_, ?_⟩
      · exact List.mem_map.mpr ⟨fl, hfl, rfl⟩
      · refine List.mem_map.mpr ⟨fn, ?_, rfl⟩
        refine List.mem_filter.mpr ⟨hfn, ?_⟩
        simp only [Bool.not_eq_true', decide_eq_false_iff_not]
        exact hnd

theorem mem_autoDeletePaths {ignore : List String} {arch : Archive} {p : FPath} :
    p ∈ autoDeletePaths ignore arch ↔
      2 ≤ (pathsOf arch p.file).length ∧ p.file ∉ ignore ∧
      (pathsOf arch p.file).filter (fun q => isOrganizedFolder q.folder) ≠ [] ∧
      p ∈ (pathsOf arch p.file).filter (fun q => isScreenshotFolder q.folder) := by
  constructor
  · intro hp
    rcases List.mem_flatMap.mp hp with ⟨fn, hfn, hp1⟩
    cases hgp : groupProcess ignore (pathsOf arch fn) fn with
    | skip => rw [hgp] at hp1; simp at hp1
    | conflict o => rw [hgp] at hp1; simp at hp1
    | autoDelete s =>
      rw [hgp] at hp1
      unfold groupProcess at hgp
      split_ifs at hgp with h1 h2 h3
      injection hgp with hgp
      subst hgp
      have hp1' : p ∈ (pathsOf arch fn).filter
          (fun q => isScreenshotFolder q.folder) := hp1
      have hpfn : p.file = fn :=
        (mem_pathsOf_iff.mp (List.mem_filter.mp hp1').1).2
      subst hpfn
      exact ⟨by omega, h2, h3.2, hp1'⟩
  · rintro ⟨hlen, hig, ho, hps⟩
    have hpOf : p ∈ pathsOf arch p.file := (List.mem_filter.mp hps).1
    have harch : p ∈ archivePaths arch := (mem_pathsOf_iff.mp hpOf).1
    refine List.mem_flatMap.mpr ⟨p.file, mem_indexFilenames harch, ?_⟩
    have hgp : groupProcess ignore (pathsOf arch p.file) p.file
        = .autoDelete ((pathsOf arch p.file).filter
            (fun q => isScreenshotFolder q.folder)) := by
      unfold groupProcess
      rw [if_neg (by omega), if_neg hig,
        if_pos ⟨List.ne_nil_of_mem hps, ho⟩]
    rw [hgp]
    exact hps

theorem mem_auditConflicts {ignore : List String} {arch : Archive}
    {fn : String} {l : List FPath} :
    (fn, l) ∈ auditConflicts ignore arch ↔
      fn ∈ indexFilenames arch ∧
      groupProcess ignore (pathsOf arch fn) fn = .conflict l := by
  constructor
  · intro h
    rcases List.mem_flatMap.mp h with ⟨fn', hfn', h1⟩
    cases hgp : groupProcess ignore (pathsOf arch fn') fn' with
    | skip => rw [hgp] at h1; simp at h1
    | autoDelete s => rw [hgp] at h1; simp at h1
    | conflict o =>
      rw [hgp] at h1
      simp only [List.mem_singleton, Prod.mk.injEq] at h1
      obtain ⟨rfl, rfl⟩ := h1
      exact ⟨hfn', hgp⟩
  · rintro ⟨hfn, hgp⟩
    refine List.mem_flatMap.mpr ⟨fn, hfn, ?_⟩
    rw [hgp]
    simp

theorem groupProcess_conflict_sub {ignore : List String} {paths : List FPath}
    {fname : String} {l : List FPath}
    (h : groupProcess ignore paths fname = .conflict l) :
    l = paths.filter (fun p => isOrganizedFolder p.folder) := by
  unfold groupProcess at h
  split_ifs at h with h1 h2 h3 h4
  injection h with h
  exact h.symm

theorem path_kept_of_not_auto {trashOk : FPath → Bool} {ignore : List String}
    {arch : Archive} {p : FPath}
    (hp : p ∈ archivePaths arch) (hnot : p ∉ autoDeletePaths ignore arch) :
    p ∈ archivePaths (auditArchive trashOk ignore arch) :=
  mem_archivePaths_audit.mpr ⟨hp, fun hdel => hnot ((List.mem_filter.mp hdel).1)⟩

theorem organized_kept {trashOk : FPath → Bool} {ignore : List String}
    {arch : Archive} {p : FPath}
    (hp : p ∈ archivePaths arch) (hno : isScreenshotFolder p.folder = false) :
    p ∈ archivePaths (auditArchive trashOk ignore arch) := by
  refine path_kept_of_not_auto hp ?_
  intro hdel
  have hs := (mem_autoDeletePaths.mp hdel).2.2.2
  have hcls : isScreenshotFolder p.folder = true := (List.mem_filter.mp hs).2
  rw [hno] at hcls
  exact absurd hcls (by simp)

theorem screenshot_deleted {trashOk : FPath → Bool} {ignore : List String}
    {arch : Archive} {p : FPath}
    (hp : p ∈ autoDeletePaths ignore arch) (ht : trashOk p = true) :
    p ∉ archivePaths (auditArchive trashOk ignore arch) := by
  intro hmem
  exact (mem_archivePaths_audit.mp hmem).2 (List.mem_filter.mpr ⟨hp, ht⟩)

theorem two_le_length_of_two_mem {α : Type} {l : List α} {a b : α}
    (ha : a ∈ l) (hb : b ∈ l) (hab : a ≠ b) : 2 ≤ l.length := by
  cases l with
  | nil => simp at ha
  | cons x t =>
    cases t with
    | nil =>
      simp at ha hb
      exact absurd (ha.trans hb.symm) hab
    | cons y u =>
      simp only [List.length_cons]
      omega

/-- C8: running `check_duplicates` twice in a row over the same archive
root, with no archive changes between the runs other than the first run's
own successful auto-deletions (and the same ignore list and the same
deterministic trash behaviour), yields zero auto-deletions on the second
run. Reason: an auto-resolvable group of the second run would have to
retain a quarantine-category copy that already qualified for deletion in
the first run, so its trash call must have failed there — and then it is
not counted in the second run either. -/
theorem check_duplicates_idempotent (trashOk : FPath → Bool)
    (ignore : List String) (arch : Archive) :
    auditCount trashOk ignore (auditArchive trashOk ignore arch) = 0 := by
  have hzero : succDeleted trashOk ignore (auditArchive trashOk ignore arch) = [] := by
    refine List.eq_nil_iff_forall_not_mem.mpr ?_
    intro p hp
    rcases List.mem_filter.mp hp with ⟨hpa, hpt⟩
    rcases mem_autoDeletePaths.mp hpa with ⟨hlen', hig, ho', hps'⟩
    rcases List.mem_filter.mp hps' with ⟨hpOf', hsp⟩
    have h2 := mem_archivePaths_audit.mp (mem_pathsOf_iff.mp hpOf').1
    have hpOf : p ∈ pathsOf arch p.file := mem_pathsOf_iff.mpr ⟨h2.1, rfl⟩
    have hsurv : p ∉ succDeleted trashOk ignore arch := h2.2
    obtain ⟨q, hq⟩ := List.exists_mem_of_ne_nil _ ho'
    rcases List.mem_filter.mp hq with ⟨hqOf', hqo⟩
    have hq1 := mem_pathsOf_iff.mp hqOf'
    have hq2 := mem_archivePaths_audit.mp hq1.1
    have hqOf : q ∈ pathsOf arch p.file := mem_pathsOf_iff.mpr ⟨hq2.1, hq1.2⟩
    have hpq : p ≠ q := by
      intro h
      rw [← h] at hqo
      rw [screenshot_not_organized hsp] at hqo
      exact absurd hqo (by simp)
    have ho : (pathsOf arch p.file).filter (fun r => isOrganizedFolder r.folder) ≠ [] :=
      List.ne_nil_of_mem (List.mem_filter.mpr ⟨hqOf, hqo⟩)
    have hlen : 2 ≤ (pathsOf arch p.file).length :=
      two_le_length_of_two_mem hpOf hqOf hpq
    have hmem1 : p ∈ autoDeletePaths ignore arch :=
      mem_autoDeletePaths.mpr ⟨hlen, hig, ho, List.mem_filter.mpr ⟨hpOf, hsp⟩⟩
    exact hsurv (List.mem_filter.mpr ⟨hmem1, hpt⟩)
  simp [auditCount, hzero]

/-- C1 (amended): for every duplicate group (a filename with at least two
indexed paths, not in the ignore list) the action equals the decision
table of `check_duplicates`: if the quarantine-category partition and the
organized partition are both non-empty, every quarantine-category path is
deleted (shown under an always-succeeding trash) and every organized path
is kept, even when more than one organized copy remains, and the group is
not reported as a conflict; if the quarantine partition is empty and the
organized partition has at least two entries, the group is returned as a
conflict with no destructive action; in ANY OTHER combination — in
particular when all copies sit in quarantine-category folders — the group
falls through both branches and nothing happens at all: no deletion and no
conflict (this is where the claim as stated is wrong: such groups do NOT
auto-resolve). -/
theorem check_duplicates_decision_table (trashOk : FPath → Bool)
    (ignore : List String) (arch : Archive) (fname : String)
    (hlen : 2 ≤ (pathsOf arch fname).length) (hig : fname ∉ ignore) :
    ((pathsOf arch fname).filter (fun p => isScreenshotFolder p.folder) ≠ [] →
     (pathsOf arch fname).filter (fun p => isOrganizedFolder p.folder) ≠ [] →
       groupProcess ignore (pathsOf arch fname) fname
         = .autoDelete ((pathsOf arch fname).filter
             (fun p => isScreenshotFolder p.folder)) ∧
       (∀ p ∈ (pathsOf arch fname).filter (fun p => isOrganizedFolder p.folder),
         p ∈ archivePaths (auditArchive trashOk ignore arch)) ∧
       (∀ p ∈ (pathsOf arch fname).filter (fun p => isScreenshotFolder p.folder),
         p ∉ archivePaths (auditArchive (fun _ => true) ignore arch)) ∧
       (∀ l, (fname, l) ∉ auditConflicts ignore arch)) ∧
    ((pathsOf arch fname).filter (fun p => isScreenshotFolder p.folder) = [] →
     2 ≤ ((pathsOf arch fname).filter (fun p => isOrganizedFolder p.folder)).length →
       groupProcess ignore (pathsOf arch fname) fname
         = .conflict ((pathsOf arch fname).filter
             (fun p => isOrganizedFolder p.folder)) ∧
       (∀ p ∈ pathsOf arch fname,
         p ∈ archivePaths (auditArchive trashOk ignore arch))) ∧
    ((pathsOf arch fname).filter (fun p => isOrganizedFolder p.folder) = [] →
       groupProcess ignore (pathsOf arch fname) fname = .skip ∧
       (∀ p ∈ pathsOf arch fname,
         p ∈ archivePaths (auditArchive trashOk ignore arch)) ∧
       (∀ l, (fname, l) ∉ auditConflicts ignore arch)) ∧
    ((pathsOf arch fname).filter (fun p => isScreenshotFolder p.folder) = [] →
     ((pathsOf arch fname).filter (fun p => isOrganizedFolder p.folder)).length < 2 →
       groupProcess ignore (pathsOf arch fname) fname = .skip ∧
       (∀ p ∈ pathsOf arch fname,
         p ∈ archivePaths (auditArchive trashOk ignore arch)) ∧
       (∀ l, (fname, l) ∉ auditConflicts ignore arch)) := by
  refine ⟨?_, ?_, ?_, ?_⟩
  · intro hs ho
    have hgp : groupProcess ignore (pathsOf arch fname) fname
        = .autoDelete ((pathsOf arch fname).filter
            (fun p => isScreenshotFolder p.folder)) := by
      unfold groupProcess
      rw [if_neg (by omega), if_neg hig, if_pos ⟨hs, ho⟩]
    refine ⟨hgp, ?_, ?_, ?_⟩
    · intro p hp
      rcases List.mem_filter.mp hp with ⟨hpOf, hpo⟩
      exact organized_kept (mem_pathsOf_iff.mp hpOf).1 (organized_not_screenshot hpo)
    · intro p hp
      rcases List.mem_filter.mp hp with ⟨hpOf, hpsp⟩
      have hpfile : p.file = fname := (mem_pathsOf_iff.mp hpOf).2
      have hauto : p ∈ autoDeletePaths ignore arch := by
        refine mem_autoDeletePaths.mpr ?_
        rw [hpfile]
        exact ⟨hlen, hig, ho, List.mem_filter.mpr ⟨hpOf, hpsp⟩⟩
      exact screenshot_deleted hauto rfl
    · intro l hl
      have hc := (mem_auditConflicts.mp hl).2
      rw [hgp] at hc
      simp at hc
  · intro hs ho2
    have hgp : groupProcess ignore (pathsOf arch fname) fname
        = .conflict ((pathsOf arch fname).filter
            (fun p => isOrganizedFolder p.folder)) := by
      unfold groupProcess
      rw [if_neg (by omega), if_neg hig, if_neg (fun hc => hc.1 hs), if_pos ho2]
    refine ⟨hgp, ?_⟩
    intro p hp
    refine path_kept_of_not_auto (mem_pathsOf_iff.mp hp).1 ?_
    intro hdel
    have h4 := (mem_autoDeletePaths.mp hdel).2.2.2
    rw [(mem_pathsOf_iff.mp hp).2, hs] at h4
    simp at h4
  · intro ho
    have hgp : groupProcess ignore (pathsOf arch fname) fname = .skip := by
      unfold groupProcess
      rw [if_neg (by omega), if_neg hig, if_neg (fun hc => hc.2 ho),
        if_neg (by rw [ho]; simp)]
    refine ⟨hgp, ?_, ?_⟩
    · intro p hp
      refine path_kept_of_not_auto (mem_pathsOf_iff.mp hp).1 ?_
      intro hdel
      have h3 := (mem_autoDeletePaths.mp hdel).2.2.1
      rw [(mem_pathsOf_iff.mp hp).2] at h3
      exact h3 ho
    · intro l hl
      have hc := (mem_auditConflicts.mp hl).2
      rw [hgp] at hc
      simp at hc
  · intro hs hlt
    have hgp : groupProcess ignore (pathsOf arch fname) fname = .skip := by
      unfold groupProcess
      rw [if_neg (by omega), if_neg hig, if_neg (fun hc => hc.1 hs),
        if_neg (by omega)]
    refine ⟨hgp, ?_, ?_⟩
    · intro p hp
      refine path_kept_of_not_auto (mem_pathsOf_iff.mp hp).1 ?_
      intro hdel
      have h4 := (mem_autoDeletePaths.mp hdel).2.2.2
      rw [(mem_pathsOf_iff.mp hp).2, hs] at h4
      simp at h4
    · intro l hl
      have hc := (mem_auditConflicts.mp hl).2
      rw [hgp] at hc
      simp at hc

/-- Counterexample to C1 as stated: in `archiveAllQuarantine` the filename
`a.jpg` has two indexed paths, every one of them in a quarantine-category
folder, so the claim's "any other combination (e.g., all copies in
quarantine-category folders) still auto-resolves by deleting all
quarantine-category copies" predicts both copies deleted — but the code
deletes nothing (the auto-delete branch needs a non-empty organized
partition and the conflict branch needs two organized copies), reports no
conflict, and counts zero deletions even with trash always succeeding. -/
theorem check_duplicates_all_quarantine_cex :
    (pathsOf archiveAllQuarantine "a.jpg").length = 2 ∧
    (∀ p ∈ pathsOf archiveAllQuarantine "a.jpg",
      isScreenshotFolder p.folder = true) ∧
    autoDeletePaths [] archiveAllQuarantine = [] ∧
    auditCount (fun _ => true) [] archiveAllQuarantine = 0 ∧
    auditConflicts [] archiveAllQuarantine = [] ∧
    ¬ (autoDeletePaths [] archiveAllQuarantine
        = (pathsOf archiveAllQuarantine "a.jpg").filter
            (fun p => isScreenshotFolder p.folder)) := by
  decide

/-- Witness for C1 at `archiveAutoResolvable` (one screenshot copy, one
organized copy): the group auto-resolves, the organized copy survives, the
screenshot copy is deleted, and no conflict is reported. -/
theorem check_duplicates_decision_table_witness :
    groupProcess [] (pathsOf archiveAutoResolvable "a.jpg") "a.jpg"
      = .autoDelete ((pathsOf archiveAutoResolvable "a.jpg").filter
          (fun p => isScreenshotFolder p.folder)) ∧
    (⟨"2024", "Vacation", "a.jpg"⟩ : FPath)
      ∈ archivePaths (auditArchive (fun _ => true) [] archiveAutoResolvable) ∧
    (⟨"2024", "!Screenshots_2024", "a.jpg"⟩ : FPath)
      ∉ archivePaths (auditArchive (fun _ => true) [] archiveAutoResolvable) ∧
    (∀ l, ("a.jpg", l) ∉ auditConflicts [] archiveAutoResolvable) := by
  have h := (check_duplicates_decision_table (fun _ => true) [] archiveAutoResolvable
      "a.jpg" (by decide) (by decide)).1 (by decide) (by decide)
  exact ⟨h.1, h.2.1 _ (by decide), h.2.2.1 _ (by decide), h.2.2.2⟩

/-- C3 (amended): in an auto-resolvable group the deletion of a
quarantine-category path is trash-only — a successful trash removes the
copy, but when trash fails the copy is simply left in place (there is no
permanent-delete fallback in `check_duplicates`), the failure is only
logged, it is not counted, and the group is not reported as a conflict. -/
theorem check_duplicates_trash_only (trashOk : FPath → Bool)
    (ignore : List String) (arch : Archive) (fname : String)
    (hlen : 2 ≤ (pathsOf arch fname).length) (hig : fname ∉ ignore)
    (hs : (pathsOf arch fname).filter (fun p => isScreenshotFolder p.folder) ≠ [])
    (ho : (pathsOf arch fname).filter (fun p => isOrganizedFolder p.folder) ≠ []) :
    (∀ p ∈ (pathsOf arch fname).filter (fun p => isScreenshotFolder p.folder),
      (trashOk p = true → p ∉ archivePaths (auditArchive trashOk ignore arch)) ∧
      (trashOk p = false → p ∈ archivePaths (auditArchive trashOk ignore arch))) ∧
    (∀ l, (fname, l) ∉ auditConflicts ignore arch) ∧
    (∀ p, trashOk p = false → p ∉ succDeleted trashOk ignore arch) := by
  have hauto : ∀ p ∈ (pathsOf arch fname).filter
      (fun p => isScreenshotFolder p.folder), p ∈ autoDeletePaths ignore arch := by
    intro p hp
    rcases List.mem_filter.mp hp with ⟨hpOf, hpsp⟩
    refine mem_autoDeletePaths.mpr ?_
    rw [(mem_pathsOf_iff.mp hpOf).2]
    exact ⟨hlen, hig, ho, List.mem_filter.mpr ⟨hpOf, hpsp⟩⟩
  refine ⟨?_, ?_, ?_⟩
  · intro p hp
    refine ⟨fun ht => screenshot_deleted (hauto p hp) ht, fun hf => ?_⟩
    refine mem_archivePaths_audit.mpr
      ⟨(mem_pathsOf_iff.mp (List.mem_filter.mp hp).1).1, ?_⟩
    intro hdel
    have hok := (List.mem_filter.mp hdel).2
    rw [hf] at hok
    exact absurd hok (by simp)
  · intro l hl
    have hgp : groupProcess ignore (pathsOf arch fname) fname
        = .autoDelete ((pathsOf arch fname).filter
            (fun p => isScreenshotFolder p.folder)) := by
      unfold groupProcess
      rw [if_neg (by omega), if_neg hig, if_pos ⟨hs, ho⟩]
    have hc := (mem_auditConflicts.mp hl).2
    rw [hgp] at hc
    simp at hc
  · intro p hf hdel
    have hok := (List.mem_filter.mp hdel).2
    rw [hf] at hok
    exact absurd hok (by simp)

/-- Counterexample to C3 as stated: in `archiveAutoResolvable` with trash
unavailable (`send2trash` fails on every path), the claim predicts a
fallback permanent delete, or — if both fail — a reported unresolved
group. The code does neither: the screenshot copy is still in the archive
afterwards (no permanent delete happened), the deletion count is 0, and
the conflict list is empty (the group is dropped from the report, only a
log line is printed). -/
theorem check_duplicates_no_fallback_cex :
    (pathsOf archiveAutoResolvable "a.jpg").filter
        (fun p => isScreenshotFolder p.folder) ≠ [] ∧
    (pathsOf archiveAutoResolvable "a.jpg").filter
        (fun p => isOrganizedFolder p.folder) ≠ [] ∧
    auditCount (fun _ => false) [] archiveAutoResolvable = 0 ∧
    archivePaths (auditArchive (fun _ => false) [] archiveAutoResolvable)
      = archivePaths archiveAutoResolvable ∧
    auditConflicts [] archiveAutoResolvable = [] := by
  decide

/-- Witness for C3 at `archiveAutoResolvable` with failing trash: the
screenshot copy stays in place and the group is not reported. -/
theorem check_duplicates_trash_only_witness :
    (⟨"2024", "!Screenshots_2024", "a.jpg"⟩ : FPath)
      ∈ archivePaths (auditArchive (fun _ => false) [] archiveAutoResolvable) ∧
    (∀ l, ("a.jpg", l) ∉ auditConflicts [] archiveAutoResolvable) := by
  have h := check_duplicates_trash_only (fun _ => false) [] archiveAutoResolvable
      "a.jpg" (by decide) (by decide) (by decide) (by decide)
  exact ⟨(h.1 _ (by decide)).2 rfl, h.2.1⟩

/-- C4 (amended): a subfolder of a year directory whose name begins with
the generic hidden marker `!` but with neither quarantine-category prefix
is excluded from both the quarantine-category and the organized
partitions, BUT its files ARE added to the global filename-to-paths index
(the indexing loop of `check_duplicates` runs for every subfolder), so
they do count towards the two-paths duplicate threshold; such paths are
nevertheless never deleted by the auditor and never appear among the paths
of a reported conflict group. -/
theorem hidden_folders_partition_and_index (ignore : List String)
    (arch : Archive) (y : YearEntry) (fl : FolderEntry) (fn : String)
    (hy : y ∈ arch) (hyn : isYearName y.name = true) (hfl : fl ∈ y.folders)
    (hbang : strStartsWith fl.name "!" = true)
    (hns : isScreenshotFolder fl.name = false) (hfn : fn ∈ fl.files) :
    (⟨y.name, fl.name, fn⟩ : FPath) ∈ pathsOf arch fn ∧
    isOrganizedFolder fl.name = false ∧
    (⟨y.name, fl.name, fn⟩ : FPath) ∉ autoDeletePaths ignore arch ∧
    (∀ fn' l, (fn', l) ∈ auditConflicts ignore arch →
      (⟨y.name, fl.name, fn⟩ : FPath) ∉ l) := by
  have hmem : (⟨y.name, fl.name, fn⟩ : FPath) ∈ archivePaths arch :=
    List.mem_flatMap.mpr ⟨y, List.mem_filter.mpr ⟨hy, hyn⟩,
      List.mem_flatMap.mpr ⟨fl, hfl, List.mem_map.mpr ⟨fn, hfn, rfl⟩⟩⟩
  have horg : isOrganizedFolder fl.name = false := by
    unfold isOrganizedFolder
    rw [hbang]
    rfl
  refine ⟨mem_pathsOf_iff.mpr ⟨hmem, rfl⟩, horg, ?_, ?_⟩
  · intro hdel
    have h4 := (mem_autoDeletePaths.mp hdel).2.2.2
    have h5 : isScreenshotFolder fl.name = true := (List.mem_filter.mp h4).2
    rw [hns] at h5
    exact absurd h5 (by simp)
  · intro fn' l hl
    have hc := (mem_auditConflicts.mp hl).2
    have hsub := groupProcess_conflict_sub hc
    intro hmem'
    rw [hsub] at hmem'
    have h5 : isOrganizedFolder fl.name = true := (List.mem_filter.mp hmem').2
    rw [horg] at h5
    exact absurd h5 (by simp)

/-- Counterexample to C4 as stated: in `archiveHidden` the file of the
generic hidden folder `!tempvideoscreen` IS in the global index (the claim
says it is not added at all), and it makes `a.jpg` reach two indexed paths
— a duplicate group the claim says could never be contributed to. -/
theorem hidden_folder_index_cex :
    (⟨"2024", "!tempvideoscreen", "a.jpg"⟩ : FPath)
      ∈ pathsOf archiveHidden "a.jpg" ∧
    (pathsOf archiveHidden "a.jpg").length = 2 := by
  decide

/-- Witness for C4 at `archiveHidden`: the hidden-folder copy is indexed,
classified in neither partition, never deleted, and never listed in a
conflict. -/
theorem hidden_folders_partition_and_index_witness :
    (⟨"2024", "!tempvideoscreen", "a.jpg"⟩ : FPath)
      ∈ pathsOf archiveHidden "a.jpg" ∧
    isOrganizedFolder "!tempvideoscreen" = false ∧
    (⟨"2024", "!tempvideoscreen", "a.jpg"⟩ : FPath)
      ∉ autoDeletePaths [] archiveHidden := by
  have h := hidden_folders_partition_and_index []
      archiveHidden
      ⟨"2024", [⟨"!tempvideoscreen", ["a.jpg"]⟩, ⟨"Vacation", ["a.jpg"]⟩]⟩
      ⟨"!tempvideoscreen", ["a.jpg"]⟩ "a.jpg"
      (by decide) (by decide) (by decide) (by decide) (by decide) (by decide)
  exact ⟨h.1, h.2.1, h.2.2.1⟩

end TriPhoto
